import Mathlib

/-!
# Verification of the `task_hook` prepare-commit-msg hook

A shallow embedding of the Rust sources of `task_hook`:

* `src/lib.rs` — work-item extraction (`create_task_number_string`),
  commit-message rewriting (`process_commit`), branch resolution
  (`get_current_branch`) and local-hook delegation
  (`delegate_to_local_git_hook`);
* `src/bin/prepare-commit-msg.rs` — the hook entry point (`main`).

External effects (the filesystem, spawned `git` processes, the delegated
hook process) are modelled by explicit environment records that record the
outcome of each effectful operation; the embedded functions are then pure
state transformers over those records.
-/

namespace TaskHook

/-! ### Work-item extraction (`create_task_number_string`, src/lib.rs:71-79)

The source matches the branch name against the anchored pattern
`^(?:task|pbi|bug|feature|feat)/([0-9]+).*$` (src/lib.rs:13) and, on a
match, returns `"#"` followed by the text of capture group 1; otherwise it
returns the empty string.  Under the default semantics of the `regex`
crate the dot does not match a newline and the end anchor matches only the
end of the haystack, so the pattern matches exactly when the name is one
of the literal alternatives, then a slash, then at least one ASCII digit,
and the remainder after the (maximal, greedy) digit run is newline-free.
-/

/-- The alternatives of the non-capturing group of
`WORK_ITEM_REGEX_PATTERN`, in the order they appear in the pattern. -/
def work_item_tags : List (List Char) :=
  ["task".data, "pbi".data, "bug".data, "feature".data, "feat".data]

/-- Consume an exact literal at the front of the input, returning the
remainder when the literal is present. -/
def dropLiteral : List Char → List Char → Option (List Char)
  | [], s => some s
  | _ :: _, [] => none
  | p :: ps, c :: cs => if p = c then dropLiteral ps cs else none

/-- Match `/([0-9]+).*$` against the rest of the haystack: a slash, a
nonempty greedy digit run (the capture), then any characters up to the end
of the haystack, none of which may be a newline. -/
def capture_after_slash : List Char → Option (List Char)
  | [] => none
  | c :: rest =>
    if c = '/' then
      if (rest.takeWhile Char.isDigit).isEmpty then none
      else if (rest.dropWhile Char.isDigit).any (fun x => x = '\n') then none
      else some (rest.takeWhile Char.isDigit)
    else none

/-- The capture of group 1 of `WORK_ITEM_REGEX_PATTERN` on a haystack, or
`none` when the pattern does not match. -/
def regex_capture (s : List Char) : Option (List Char) :=
  work_item_tags.findSome? fun p => (dropLiteral p s).bind capture_after_slash

/-- Embedding of `create_task_number_string` (src/lib.rs:71-79): `"#"`
followed by the captured digits on a match, the empty string otherwise. -/
def create_task_number_string (branch_name : String) : String :=
  match regex_capture branch_name.data with
  | some digits => String.mk ('#' :: digits)
  | none => ""

/-! ### Commit-message rewriting (`process_commit`, src/lib.rs:52-69)

The commit-message file is modelled by its on-disk state: absent (or
unopenable), present but not valid UTF-8, or present with text content.
`process_commit` reads the file (both `File::open` and `read_to_string`
propagate failure with `?` before anything is written), computes the task
number string, then recreates the file with the original content followed
by the task number string.  Failures of the write itself are not
modelled; every claim below concerns either the read path or the fully
successful rewrite. -/

/-- The state of the commit-message file. -/
inductive FileVal
  | absent
  | invalid (bytes : List Nat)
  | text (s : String)
deriving DecidableEq

/-- The possible read-side failures of `process_commit`: `File::open`
failing, or `read_to_string` rejecting content that is not valid UTF-8. -/
inductive IoErr
  | openError
  | utf8Error
deriving DecidableEq

/-- Outcome of opening and reading the commit-message file in full. -/
def readFile : FileVal → Except IoErr String
  | .absent => .error .openError
  | .invalid _ => .error .utf8Error
  | .text s => .ok s

/-- Embedding of `process_commit` (src/lib.rs:52-69): read the current
message, compute `create_task_number_string`, recreate the file with the
message followed by the task number string.  Returns the `Result` paired
with the resulting file state. -/
def process_commit (branch_name : String) (file : FileVal) :
    Except IoErr Unit × FileVal :=
  match readFile file with
  | .error e => (.error e, file)
  | .ok current_message =>
    let task_number_string := create_task_number_string branch_name
    (.ok (), .text (current_message ++ task_number_string))

/-! ### Branch resolution (`get_current_branch`, src/lib.rs:26-49)

The two `git rev-parse` invocations are modelled by a record holding the
outcome of each: either a spawn failure (the `?` on `.output()`) or a
captured `Output` with its exit status, stdout bytes and stderr text.
Stdout is either valid UTF-8 (carrying its decoded text) or not, matching
the `String::from_utf8(...)?` step.  Trimming is modelled on the
character list; the source uses `str::trim`, whose whitespace class
restricted to the characters occurring in `git` output is the one used
here. -/

/-- Captured standard output of a spawned command: either valid UTF-8 text
or bytes that `String::from_utf8` rejects. -/
inductive StdoutBytes
  | valid (s : String)
  | invalid
deriving DecidableEq

/-- A captured `std::process::Output`: exit-status success flag, stdout
bytes, stderr text (read lossily in the source). -/
structure CmdOut where
  success : Bool
  stdout : StdoutBytes
  stderr : String
deriving DecidableEq

/-- The outcomes of the two `git rev-parse` invocations made by
`get_current_branch`: `--abbrev-ref HEAD` and `--short HEAD`.  An `error`
value is a spawn failure of the command itself. -/
structure GitEnv where
  branch_cmd : Except Unit CmdOut
  short_hash_cmd : Except Unit CmdOut

/-- The `String::from_utf8(output.stdout)?` step. -/
def decodeUtf8 : StdoutBytes → Except Unit String
  | .valid s => .ok s
  | .invalid => .error ()

/-- Remove leading and trailing whitespace, as `str::trim` does. -/
def strTrim (s : String) : String :=
  String.mk (((s.data.dropWhile Char.isWhitespace).reverse.dropWhile
    Char.isWhitespace).reverse)

/-- Embedding of `get_current_branch` (src/lib.rs:26-49): query the
abbreviated branch name; on success and valid UTF-8, trim it; if the
result is the sentinel `"HEAD"`, query the short commit hash and — only
when that second query succeeds with valid UTF-8 — return
`"HEAD-" ++ hash`; in every remaining non-error case return the trimmed
name itself. -/
def get_current_branch (env : GitEnv) : Except String String :=
  match env.branch_cmd with
  | .error _ => .error "failed to spawn git rev-parse --abbrev-ref HEAD"
  | .ok output =>
    if output.success then
      match decodeUtf8 output.stdout with
      | .error _ => .error "stdout was not valid utf-8"
      | .ok raw =>
        let branch := strTrim raw
        if branch = "HEAD" then
          match env.short_hash_cmd with
          | .error _ => .error "failed to spawn git rev-parse --short HEAD"
          | .ok hash_output =>
            if hash_output.success then
              match decodeUtf8 hash_output.stdout with
              | .error _ => .error "stdout was not valid utf-8"
              | .ok hraw => .ok ("HEAD-" ++ strTrim hraw)
            else .ok branch
        else .ok branch
    else .error ("Failed to get current branch: " ++ output.stderr)

/-! ### Local-hook delegation (`delegate_to_local_git_hook`, src/lib.rs:82-102)

The function queries the git directory, checks whether
`<git-dir>/hooks/prepare-commit-msg` exists and has an executable bit
(`mode & 0o111 != 0`), and if so runs it with the arguments this process
received (`env::args().skip(1)`).  If the sub-hook terminates
unsuccessfully, the process exits with `status.code().unwrap_or(1)`.
Spawn failures (of the git query or of the sub-hook) propagate with `?` as
a returned error.  The environment records the outcome of each of these
external observations; `run_hook` yields the sub-hook exit status for the
argument list it was started with (`some c` an exit code, `none`
terminated by a signal, so without a code). -/

/-- The external observations `delegate_to_local_git_hook` makes. -/
structure HookEnv where
  git_dir_query : Except Unit Unit
  hook_exists : Bool
  hook_mode : Nat
  run_hook : List String → Except Unit (Option Int)

/-- How a call to `delegate_to_local_git_hook` ends: a normal `Ok` return,
an `Err` return (a `?` fired), or `process::exit` with a code. -/
inductive DelegateResult
  | returnedOk
  | returnedErr
  | exited (code : Int)
deriving DecidableEq

/-- Embedding of `delegate_to_local_git_hook` (src/lib.rs:82-102).  The
second component records the argument list the sub-hook process was
started with, or `none` when no start was attempted. -/
def delegate_to_local_git_hook (env : HookEnv) (args : List String) :
    DelegateResult × Option (List String) :=
  match env.git_dir_query with
  | .error _ => (.returnedErr, none)
  | .ok _ =>
    if env.hook_exists then
      if env.hook_mode.land 0o111 ≠ 0 then
        match env.run_hook args with
        | .error _ => (.returnedErr, some args)
        | .ok st =>
          if st = some 0 then (.returnedOk, some args)
          else (.exited (st.getD 1), some args)
      else (.returnedOk, none)
    else (.returnedOk, none)

/-! ### The hook entry point (`main`, src/bin/prepare-commit-msg.rs)

`main` reads `argv[1]` (commit-message file path) and `argv[2]`
(commit-source tag), resolves the branch, and matches on the triple in
source order: rewrite when the source tag is absent, rewrite when it
equals `"message"`, do nothing otherwise; branch-resolution failure exits
1 (taking precedence over a missing path, per the arm order), a missing
path exits 2, and a failed rewrite exits 2. -/

/-- The full input of one hook invocation: git-command outcomes, the
argument list `argv[1..]`, the commit-message file, and the delegation
environment. -/
structure ProgInput where
  env_git : GitEnv
  args : List String
  file : FileVal
  env_hook : HookEnv

/-- The observable outcome of one hook invocation: process exit code,
final commit-message file state, and the argument list the delegated
sub-hook was started with, if any. -/
structure ProgOutput where
  exit_code : Int
  file : FileVal
  sub_hook_invocation : Option (List String)
deriving DecidableEq

/-- Modelled from the spec: the functions `ordinary_commit` and
`message_commit` invoked by `main`
(src/bin/prepare-commit-msg.rs:20,33) are not present under src/.  Per
the spec (section 2 control flow, section 4.3 rewrite procedure, section
4.4 hook delegation, section 7 error taxonomy) the triggered rewrite
performs the section 4.3 read-append-write procedure — the library
function `process_commit` of src/lib.rs — and after a successful rewrite
delegates to a previously installed local hook via
`delegate_to_local_git_hook` (src/lib.rs:82-102), a delegation invocation
failure being fatal with exit 3.  A failed rewrite exits 2 (from `main`,
src/bin/prepare-commit-msg.rs:23-26,36-39). -/
def rewrite_and_delegate (branch : String) (inp : ProgInput) : ProgOutput :=
  match process_commit branch inp.file with
  | (.error _, f) => ⟨2, f, none⟩
  | (.ok _, f) =>
    match delegate_to_local_git_hook inp.env_hook inp.args with
    | (.returnedOk, inv) => ⟨0, f, inv⟩
    | (.returnedErr, inv) => ⟨3, f, inv⟩
    | (.exited c, inv) => ⟨c, f, inv⟩

/-- Embedding of `main` (src/bin/prepare-commit-msg.rs:10-54): the match
arms in source order over the resolved branch, `argv[1]` and `argv[2]`. -/
def main_model (inp : ProgInput) : ProgOutput :=
  match get_current_branch inp.env_git, inp.args[0]?, inp.args[1]? with
  | .ok branch, some _, none => rewrite_and_delegate branch inp
  | .ok branch, some _, some src =>
    if src = "message" then rewrite_and_delegate branch inp
    else ⟨0, inp.file, none⟩
  | .error _, _, _ => ⟨1, inp.file, none⟩
  | .ok _, none, _ => ⟨2, inp.file, none⟩

/-- A delegation environment with no local hook installed; its `run_hook`
field is never reached. -/
def benign_hook : HookEnv := ⟨.ok (), false, 0, fun _ => .ok (some 0)⟩

/-- A git environment on branch `task/123`. -/
def env_task_branch : GitEnv :=
  ⟨.ok ⟨true, .valid "task/123\n", ""⟩, .ok ⟨true, .valid "abc1234\n", ""⟩⟩

/-- An executable local hook whose run ends with the given status. -/
def exec_hook (st : Except Unit (Option Int)) : HookEnv :=
  ⟨.ok (), true, 0o755, fun _ => st⟩

/-- Invocation on `task/123` with an installed, executable local hook that
exits 0. -/
def inp_delegate : ProgInput :=
  ⟨env_task_branch, ["msg.txt"], .text "m\n", exec_hook (.ok (some 0))⟩

/-- Invocation on `task/123` with no local hook installed. -/
def inp_no_hook : ProgInput :=
  ⟨env_task_branch, ["msg.txt"], .text "m\n", benign_hook⟩

/-- Invocation whose branch resolution fails and whose commit-message
file path argument is missing at the same time. -/
def cex_err_branch_no_file : ProgInput :=
  ⟨⟨.error (), .error ()⟩, [], .text "m", benign_hook⟩

/-- Invocation on `task/123` with an executable local hook that is
terminated by a signal, so its exit code is unavailable. -/
def cex_no_code : ProgInput :=
  ⟨env_task_branch, ["msg.txt"], .text "m\n", exec_hook (.ok none)⟩

/-- Invocation on `task/123` with an executable local hook that exits 5. -/
def inp_hook_exits_5 : ProgInput :=
  ⟨env_task_branch, ["msg.txt"], .text "m\n", exec_hook (.ok (some 5))⟩

/-- A detached-HEAD environment: the abbreviated-name query prints the
sentinel `HEAD`, the short-hash query prints `abc1234`. -/
def env_detached : GitEnv :=
  ⟨.ok ⟨true, .valid "HEAD\n", ""⟩, .ok ⟨true, .valid "abc1234\n", ""⟩⟩

/-- An on-branch environment: the abbreviated-name query prints `main`. -/
def env_on_main : GitEnv :=
  ⟨.ok ⟨true, .valid "main\n", ""⟩, .ok ⟨true, .valid "abc1234\n", ""⟩⟩

/-- A detached-HEAD environment in which the follow-up short-hash query
completes with a non-success exit status. -/
def env_detached_hash_fails : GitEnv :=
  ⟨.ok ⟨true, .valid "HEAD\n", ""⟩, .ok ⟨false, .valid "", "fatal"⟩⟩

end TaskHook

namespace TaskHook

/-! ### Theorems -/

example : create_task_number_string "task/123-some-feature" = "#123" := by decide
example : create_task_number_string "task/0001-feature" = "#0001" := by decide
example : create_task_number_string "pbi/456-user-story" = "#456" := by decide
example : create_task_number_string "bug/789-fix-issue" = "#789" := by decide
example : create_task_number_string "feature/012-cool-feature" = "#012" := by decide
example : create_task_number_string "feat/012-cool-feature" = "#012" := by decide
example : create_task_number_string "feature/some-feature" = "" := by decide
example : create_task_number_string "main" = "" := by decide
example : create_task_number_string "task/feature-name" = "" := by decide
example : create_task_number_string "task/" = "" := by decide
example : create_task_number_string "Task/123" = "" := by decide
example : create_task_number_string "task/123" = "#123" := by decide

theorem dropLiteral_eq_some (p : List Char) :
    ∀ s r : List Char, dropLiteral p s = some r ↔ s = p ++ r := by
  induction p with
  | nil => intro s r; simp [dropLiteral]
  | cons a as ih =>
    intro s r
    cases s with
    | nil => simp [dropLiteral]
    | cons b bs =>
      by_cases h : a = b
      · subst h; simp [dropLiteral, ih]
      · simp [dropLiteral, h]
        exact fun hb _ => h hb.symm

theorem capture_after_slash_pos (rest : List Char)
    (hd : rest.takeWhile Char.isDigit ≠ [])
    (hn : ∀ c ∈ rest.dropWhile Char.isDigit, c ≠ '\n') :
    capture_after_slash ('/' :: rest) = some (rest.takeWhile Char.isDigit) := by
  have h1 : (rest.takeWhile Char.isDigit).isEmpty = false := by
    simpa [List.isEmpty_iff] using hd
  have h2 : (rest.dropWhile Char.isDigit).any (fun x => x = '\n') = false := by
    simp only [List.any_eq_false, decide_eq_true_eq]
    exact hn
  simp [capture_after_slash, h1, h2]

theorem regex_capture_pos (p rest : List Char) (hp : p ∈ work_item_tags)
    (hd : rest.takeWhile Char.isDigit ≠ [])
    (hn : ∀ c ∈ rest.dropWhile Char.isDigit, c ≠ '\n') :
    regex_capture (p ++ '/' :: rest) = some (rest.takeWhile Char.isDigit) := by
  have hcap := capture_after_slash_pos rest hd hn
  simp only [work_item_tags, List.mem_cons, List.not_mem_nil, or_false] at hp
  rcases hp with h | h | h | h | h <;> subst h <;>
    simp [regex_capture, work_item_tags, List.findSome?, dropLiteral, hcap]

theorem capture_after_slash_neg (rest : List Char)
    (h : rest.takeWhile Char.isDigit = [] ∨ ∃ c ∈ rest.dropWhile Char.isDigit, c = '\n') :
    capture_after_slash ('/' :: rest) = none := by
  show (if (rest.takeWhile Char.isDigit).isEmpty then none
        else if (rest.dropWhile Char.isDigit).any (fun x => x = '\n') then none
        else some (rest.takeWhile Char.isDigit) : Option (List Char)) = none
  rcases h with hemp | ⟨c, hc1, hc2⟩
  · rw [hemp]; rfl
  · have hany : (rest.dropWhile Char.isDigit).any (fun x => x = '\n') = true := by
      simp only [List.any_eq_true, decide_eq_true_eq]
      exact ⟨c, hc1, hc2⟩
    by_cases hemp : (rest.takeWhile Char.isDigit).isEmpty = true
    · rw [hemp]; rfl
    · simp only [hemp, hany]; rfl

theorem regex_capture_neg (s : List Char)
    (h : ∀ p rest, p ∈ work_item_tags → s = p ++ '/' :: rest →
      rest.takeWhile Char.isDigit = [] ∨ ∃ c ∈ rest.dropWhile Char.isDigit, c = '\n') :
    regex_capture s = none := by
  rw [regex_capture, List.findSome?_eq_none_iff]
  intro p hp
  cases hdl : dropLiteral p s with
  | none => rfl
  | some r =>
    have hs : s = p ++ r := (dropLiteral_eq_some p s r).mp hdl
    cases r with
    | nil => rfl
    | cons c rest =>
      by_cases hc : c = '/'
      · subst hc
        simpa using capture_after_slash_neg rest (h p rest hp hs)
      · show capture_after_slash (c :: rest) = none
        simp [capture_after_slash, hc]

/-- Claim C1: for every branch name, `create_task_number_string` returns
`"#"` followed by exactly the maximal leading digit run after the slash
when the branch matches the anchored, case-sensitive pattern — one of the
literal alternatives `task`, `pbi`, `bug`, `feature`, `feat`, then `/`,
then one or more ASCII digits (leading zeros preserved verbatim), then a
tail in which the dot of the pattern can match every character (that is, a
newline-free tail) — and returns the empty string for every other branch
name (wrong alternative, non-digit immediately after the slash, no slash,
or a tail the pattern cannot match). -/
theorem c1_extraction_characterization (s : List Char) :
    (∀ p rest, p ∈ work_item_tags → s = p ++ '/' :: rest →
      rest.takeWhile Char.isDigit ≠ [] →
      (∀ c ∈ rest.dropWhile Char.isDigit, c ≠ '\n') →
      create_task_number_string (String.mk s) = String.mk ('#' :: rest.takeWhile Char.isDigit))
    ∧ ((∀ p rest, p ∈ work_item_tags → s = p ++ '/' :: rest →
      rest.takeWhile Char.isDigit = [] ∨ ∃ c ∈ rest.dropWhile Char.isDigit, c = '\n') →
      create_task_number_string (String.mk s) = "") := by
  constructor
  · intro p rest hp hs hd hn
    subst hs
    show (match regex_capture (p ++ '/' :: rest) with
      | some digits => String.mk ('#' :: digits)
      | none => "") = String.mk ('#' :: rest.takeWhile Char.isDigit)
    rw [regex_capture_pos p rest hp hd hn]
  · intro h
    show (match regex_capture s with
      | some digits => String.mk ('#' :: digits)
      | none => "") = ""
    rw [regex_capture_neg s h]

/-- Concrete instance of the extraction characterization at the branch
`task/0001-x`: the zero-padded digit run is preserved verbatim. -/
theorem c1_extraction_characterization_witness :
    create_task_number_string (String.mk ("task".data ++ '/' :: "0001-x".data)) =
      String.mk ('#' :: "0001-x".data.takeWhile Char.isDigit) :=
  (c1_extraction_characterization ("task".data ++ '/' :: "0001-x".data)).1
    "task".data "0001-x".data (by decide) rfl (by decide) (by decide)

/-- Claim C2: for every branch whose extraction yields `"#" ++ digits` and
every original text content, `process_commit` succeeds and the file
content afterwards is the original content followed immediately by
`"#" ++ digits`, byte for byte, with no separator inserted. -/
theorem c2_append_invariant (b digits orig : String)
    (h : create_task_number_string b = "#" ++ digits) :
    process_commit b (.text orig) = (.ok (), .text (orig ++ "#" ++ digits)) := by
  simp [process_commit, readFile, h, String.append_assoc]

/-- Concrete instance of the append invariant: branch
`task/123-some-feature` appends `#123` to `"Original commit message\n"`
with no separator. -/
theorem c2_append_invariant_witness :
    process_commit "task/123-some-feature" (.text "Original commit message\n") =
      (.ok (), .text ("Original commit message\n" ++ "#" ++ "123")) :=
  c2_append_invariant "task/123-some-feature" "123" "Original commit message\n" (by decide)

/-- Claim C5: for every branch whose extraction yields the empty string,
`process_commit` still performs the read-then-write — in particular the
read is not skipped, so an unreadable file still fails — but on a
readable file the call succeeds and the content is byte-identical to what
it was before the call. -/
theorem c5_noop_on_nonmatching (b orig : String)
    (h : create_task_number_string b = "") :
    process_commit b (.text orig) = (.ok (), .text orig)
    ∧ process_commit b .absent = (.error .openError, .absent) := by
  refine ⟨?_, rfl⟩
  simp [process_commit, readFile, h]

/-- Concrete instance of the no-op invariant: branch `main` leaves
`"Original commit message\n"` byte-identical. -/
theorem c5_noop_on_nonmatching_witness :
    process_commit "main" (.text "Original commit message\n") =
      (.ok (), .text "Original commit message\n")
    ∧ process_commit "main" .absent = (.error .openError, .absent) :=
  c5_noop_on_nonmatching "main" "Original commit message\n" (by decide)

/-- Claim C10: whenever opening or reading the commit-message file fails
(absent or unreadable file, or content that is not valid UTF-8),
`process_commit` returns that error and the file state is exactly what it
was before the call: the failure happens before the file is truncated or
written. -/
theorem c10_read_error_atomicity (b : String) (f : FileVal) (e : IoErr)
    (h : readFile f = .error e) :
    process_commit b f = (.error e, f) := by
  simp [process_commit, h]

/-- Concrete instance of read-path atomicity: a file with non-UTF-8
content is left exactly as it was and the UTF-8 error is surfaced. -/
theorem c10_read_error_atomicity_witness :
    process_commit "task/123" (.invalid [255]) = (.error .utf8Error, .invalid [255]) :=
  c10_read_error_atomicity "task/123" (.invalid [255]) .utf8Error rfl

/-- Claim C6: when the branch query succeeds and its trimmed output is the
sentinel `"HEAD"`, `get_current_branch` performs the second (short-hash)
query and — when it succeeds — returns the synthetic value
`"HEAD-" ++ hash`; when the trimmed output is any other name, that name is
returned verbatim with surrounding whitespace trimmed. -/
theorem c6_branch_resolution (env : GitEnv) (o : CmdOut) (raw : String)
    (h1 : env.branch_cmd = .ok o) (h2 : o.success = true)
    (h3 : decodeUtf8 o.stdout = .ok raw) :
    (strTrim raw = "HEAD" →
      ∀ ho hraw, env.short_hash_cmd = .ok ho → ho.success = true →
        decodeUtf8 ho.stdout = .ok hraw →
        get_current_branch env = .ok ("HEAD-" ++ strTrim hraw))
    ∧ (strTrim raw ≠ "HEAD" → get_current_branch env = .ok (strTrim raw)) := by
  constructor
  · intro hhead ho hraw h4 h5 h6
    simp [get_current_branch, h1, h2, h3, hhead, h4, h5, h6]
  · intro hne
    simp [get_current_branch, h1, h2, h3, hne]

/-- Concrete instances of branch resolution: a detached HEAD with short
hash `abc1234` resolves to `HEAD-abc1234`, and an ordinary branch `main`
resolves to `main`. -/
theorem c6_branch_resolution_witness :
    get_current_branch env_detached = .ok ("HEAD-" ++ strTrim "abc1234\n")
    ∧ get_current_branch env_on_main = .ok (strTrim "main\n") :=
  ⟨(c6_branch_resolution env_detached ⟨true, .valid "HEAD\n", ""⟩ "HEAD\n" rfl rfl rfl).1
      (by decide) ⟨true, .valid "abc1234\n", ""⟩ "abc1234\n" rfl rfl rfl,
   (c6_branch_resolution env_on_main ⟨true, .valid "main\n", ""⟩ "main\n" rfl rfl rfl).2
      (by decide)⟩

/-- Claim C9: when the first branch query succeeds with trimmed output
`"HEAD"` but the follow-up short-hash query completes with a non-success
exit status, `get_current_branch` returns `Ok("HEAD")` — the raw sentinel
— rather than an error or a synthetic `HEAD-` value. -/
theorem c9_hash_failure_returns_sentinel (env : GitEnv) (o ho : CmdOut) (raw : String)
    (h1 : env.branch_cmd = .ok o) (h2 : o.success = true)
    (h3 : decodeUtf8 o.stdout = .ok raw) (h4 : strTrim raw = "HEAD")
    (h5 : env.short_hash_cmd = .ok ho) (h6 : ho.success = false) :
    get_current_branch env = .ok "HEAD" := by
  simp [get_current_branch, h1, h2, h3, h4, h5, h6]

/-- Concrete instance: short-hash query exits non-zero in detached state,
and the resolver returns the raw sentinel `HEAD`. -/
theorem c9_hash_failure_returns_sentinel_witness :
    get_current_branch env_detached_hash_fails = .ok "HEAD" :=
  c9_hash_failure_returns_sentinel env_detached_hash_fails
    ⟨true, .valid "HEAD\n", ""⟩ ⟨false, .valid "", "fatal"⟩ "HEAD\n"
    rfl rfl rfl (by decide) rfl rfl

/-- Claim C3: whenever the commit-source argument is present and differs
from the literal `"message"`, the commit-message file is left completely
untouched whatever the branch-resolution outcome, and — for every
resolved branch name — the program exits with status 0 (and starts no
sub-hook). -/
theorem c3_skip_invariant (inp : ProgInput) (f s : String) (rest : List String)
    (hargs : inp.args = f :: s :: rest) (hs : s ≠ "message") :
    (main_model inp).file = inp.file
    ∧ ∀ b, get_current_branch inp.env_git = .ok b →
        main_model inp = ⟨0, inp.file, none⟩ := by
  have h0 : inp.args[0]? = some f := by rw [hargs]; simp
  have h1 : inp.args[1]? = some s := by rw [hargs]; simp
  constructor
  · cases hb : get_current_branch inp.env_git with
    | error e => simp [main_model, hb, h0, h1]
    | ok b => simp [main_model, hb, h0, h1, hs]
  · intro b hb
    simp [main_model, hb, h0, h1, hs]

/-- Concrete instance of the skip invariant: commit-source `merge` on
branch `task/123` leaves the file untouched and exits 0. -/
theorem c3_skip_invariant_witness :
    (main_model ⟨env_task_branch, ["msg.txt", "merge"], .text "Original commit message\n",
        benign_hook⟩).file = FileVal.text "Original commit message\n"
    ∧ main_model ⟨env_task_branch, ["msg.txt", "merge"], .text "Original commit message\n",
        benign_hook⟩ = ⟨0, .text "Original commit message\n", none⟩ :=
  ⟨(c3_skip_invariant ⟨env_task_branch, ["msg.txt", "merge"],
      .text "Original commit message\n", benign_hook⟩ "msg.txt" "merge" [] rfl
      (by decide)).1,
   (c3_skip_invariant ⟨env_task_branch, ["msg.txt", "merge"],
      .text "Original commit message\n", benign_hook⟩ "msg.txt" "merge" [] rfl
      (by decide)).2 "task/123" rfl⟩

/-- Claim C4 (spec-modelled placement of the delegation call): on every
invocation that triggers a rewrite and whose rewrite succeeds, the
program consults the local hook of the same name: if the hook exists and
has an executable bit it is started with exactly the argument list this
program received, and if it is absent or not executable the delegation is
a silent no-op, leaving exit status 0. -/
theorem c4_delegation_after_rewrite (inp : ProgInput) (b f : String)
    (hb : get_current_branch inp.env_git = .ok b)
    (h0 : inp.args[0]? = some f)
    (h1 : inp.args[1]? = none ∨ inp.args[1]? = some "message")
    (horig : ∃ orig, inp.file = .text orig)
    (hgit : inp.env_hook.git_dir_query = .ok ()) :
    (inp.env_hook.hook_exists = true → inp.env_hook.hook_mode.land 0o111 ≠ 0 →
      (main_model inp).sub_hook_invocation = some inp.args)
    ∧ ((inp.env_hook.hook_exists = false ∨ inp.env_hook.hook_mode.land 0o111 = 0) →
      (main_model inp).sub_hook_invocation = none ∧ (main_model inp).exit_code = 0) := by
  obtain ⟨orig, hfile⟩ := horig
  have hpc : process_commit b inp.file =
      (.ok (), .text (orig ++ create_task_number_string b)) := by
    rw [hfile]; simp [process_commit, readFile]
  have hmain : main_model inp = rewrite_and_delegate b inp := by
    rcases h1 with h1 | h1 <;> simp [main_model, hb, h0, h1]
  constructor
  · intro hex hmode
    rw [hmain]
    cases hrun : inp.env_hook.run_hook inp.args with
    | error e =>
      simp [rewrite_and_delegate, hpc, delegate_to_local_git_hook, hgit, hex, hmode, hrun]
    | ok st =>
      by_cases h00 : st = some 0 <;>
        simp [rewrite_and_delegate, hpc, delegate_to_local_git_hook, hgit, hex, hmode,
          hrun, h00]
  · intro hne
    have hdel : delegate_to_local_git_hook inp.env_hook inp.args = (.returnedOk, none) := by
      rcases hne with hne | hne
      · simp [delegate_to_local_git_hook, hgit, hne]
      · cases hex : inp.env_hook.hook_exists <;>
          simp [delegate_to_local_git_hook, hgit, hne, hex]
    rw [hmain]
    simp [rewrite_and_delegate, hpc, hdel]

/-- Concrete instances of delegation: with an installed executable hook
the sub-hook is started with the forwarded argument list, and with no
hook installed nothing is started and the program exits 0. -/
theorem c4_delegation_after_rewrite_witness :
    (main_model inp_delegate).sub_hook_invocation = some ["msg.txt"]
    ∧ (main_model inp_no_hook).sub_hook_invocation = none
      ∧ (main_model inp_no_hook).exit_code = 0 :=
  ⟨(c4_delegation_after_rewrite inp_delegate "task/123" "msg.txt" rfl rfl
      (Or.inl rfl) ⟨"m\n", rfl⟩ rfl).1 rfl (by decide),
   (c4_delegation_after_rewrite inp_no_hook "task/123" "msg.txt" rfl rfl
      (Or.inl rfl) ⟨"m\n", rfl⟩ rfl).2 (Or.inl rfl)⟩

/-- Counterexample to claim C7 as stated: when branch resolution fails
and the commit-message file path argument is missing at the same time,
the program exits with status 1 (the branch-resolution arm comes first in
the source match), not with status 2 as "status 2 exactly when the
file path argument is missing" would require. -/
theorem c7_exit_codes_counterexample :
    cex_err_branch_no_file.args[0]? = none
    ∧ (main_model cex_err_branch_no_file).exit_code = 1
    ∧ (main_model cex_err_branch_no_file).exit_code ≠ 2 :=
  ⟨rfl, rfl, by decide⟩

/-- Claim C7 as amended: provided the delegated hook (when one is
reached) returns without terminating the process, the program exits with
status 1 exactly when branch resolution fails; with status 2 exactly when
branch resolution succeeds and the file path argument is missing or the
triggered rewrite fails with an I/O error; and with status 0 exactly on
the remaining (successful or skip) paths. -/
theorem c7_exit_codes (inp : ProgInput)
    (hq : (delegate_to_local_git_hook inp.env_hook inp.args).1 = .returnedOk) :
    ((main_model inp).exit_code = 1 ↔ ∃ e, get_current_branch inp.env_git = .error e)
    ∧ ((main_model inp).exit_code = 2 ↔ (∃ b, get_current_branch inp.env_git = .ok b) ∧
        (inp.args[0]? = none ∨
          ((inp.args[1]? = none ∨ inp.args[1]? = some "message") ∧
            ∃ e, readFile inp.file = .error e)))
    ∧ ((main_model inp).exit_code = 0 ↔ (∃ b, get_current_branch inp.env_git = .ok b) ∧
        inp.args[0]? ≠ none ∧
        ((∃ s, inp.args[1]? = some s ∧ s ≠ "message") ∨
          ∃ m, readFile inp.file = .ok m)) := by
  rcases hdel : delegate_to_local_git_hook inp.env_hook inp.args with ⟨dr, inv⟩
  rw [hdel] at hq
  simp only at hq
  subst hq
  cases hb : get_current_branch inp.env_git with
  | error e =>
    refine ⟨?_, ?_, ?_⟩ <;> simp [main_model, hb]
  | ok b =>
    cases h0 : inp.args[0]? with
    | none =>
      refine ⟨?_, ?_, ?_⟩ <;> simp [main_model, hb, h0]
    | some f =>
      cases h1 : inp.args[1]? with
      | none =>
        cases hr : readFile inp.file with
        | error e2 =>
          refine ⟨?_, ?_, ?_⟩ <;>
            simp [main_model, hb, h0, h1, rewrite_and_delegate, process_commit, hr]
        | ok m =>
          refine ⟨?_, ?_, ?_⟩ <;>
            simp [main_model, hb, h0, h1, rewrite_and_delegate, process_commit, hr, hdel]
      | some s =>
        by_cases hs : s = "message"
        · subst hs
          cases hr : readFile inp.file with
          | error e2 =>
            refine ⟨?_, ?_, ?_⟩ <;>
              simp [main_model, hb, h0, h1, rewrite_and_delegate, process_commit, hr]
          | ok m =>
            refine ⟨?_, ?_, ?_⟩ <;>
              simp [main_model, hb, h0, h1, rewrite_and_delegate, process_commit, hr, hdel]
        · refine ⟨?_, ?_, ?_⟩ <;> simp [main_model, hb, h0, h1, hs]

/-- Concrete instance of the amended exit-code contract: a successful
rewrite on branch `task/123` with no installed local hook exits 0. -/
theorem c7_exit_codes_witness :
    (main_model inp_no_hook).exit_code = 0 :=
  (c7_exit_codes inp_no_hook rfl).2.2.mpr
    ⟨⟨"task/123", rfl⟩, by decide, Or.inr ⟨"m\n", rfl⟩⟩

/-- Counterexample to claim C8 as stated: an installed, executable local
hook terminated by a signal has no exit code available, and the program
exits with status 1 — the source uses `status.code().unwrap_or(1)` — not
with status 3. -/
theorem c8_delegation_exit_counterexample :
    (main_model cex_no_code).exit_code = 1
    ∧ (main_model cex_no_code).exit_code ≠ 3 :=
  ⟨rfl, by decide⟩

/-- Claim C8 as amended: when the sub-hook exits with a non-zero status
whose code is available, the program terminates with that same code; when
the sub-hook terminates without an available exit code, the program exits
with status 1; when delegation itself fails to invoke the sub-hook, the
program exits with status 3 (the last case per the spec-modelled handling
of the delegation error in the missing callers). -/
theorem c8_delegation_exit (inp : ProgInput) (b f : String)
    (hb : get_current_branch inp.env_git = .ok b)
    (h0 : inp.args[0]? = some f)
    (h1 : inp.args[1]? = none ∨ inp.args[1]? = some "message")
    (horig : ∃ orig, inp.file = .text orig)
    (hgit : inp.env_hook.git_dir_query = .ok ())
    (hex : inp.env_hook.hook_exists = true)
    (hmode : inp.env_hook.hook_mode.land 0o111 ≠ 0) :
    (∀ c : Int, c ≠ 0 → inp.env_hook.run_hook inp.args = .ok (some c) →
      (main_model inp).exit_code = c)
    ∧ (inp.env_hook.run_hook inp.args = .ok none → (main_model inp).exit_code = 1)
    ∧ (inp.env_hook.run_hook inp.args = .error () → (main_model inp).exit_code = 3) := by
  obtain ⟨orig, hfile⟩ := horig
  have hpc : process_commit b inp.file =
      (.ok (), .text (orig ++ create_task_number_string b)) := by
    rw [hfile]; simp [process_commit, readFile]
  have hmain : main_model inp = rewrite_and_delegate b inp := by
    rcases h1 with h1 | h1 <;> simp [main_model, hb, h0, h1]
  refine ⟨?_, ?_, ?_⟩
  · intro c hc hrun
    rw [hmain]
    simp [rewrite_and_delegate, hpc, delegate_to_local_git_hook, hgit, hex, hmode, hrun, hc]
  · intro hrun
    rw [hmain]
    simp [rewrite_and_delegate, hpc, delegate_to_local_git_hook, hgit, hex, hmode, hrun]
  · intro hrun
    rw [hmain]
    simp [rewrite_and_delegate, hpc, delegate_to_local_git_hook, hgit, hex, hmode, hrun]

/-- Concrete instance of the amended delegation contract: a sub-hook that
exits 5 makes the program terminate with status 5. -/
theorem c8_delegation_exit_witness :
    (main_model inp_hook_exits_5).exit_code = 5 :=
  (c8_delegation_exit inp_hook_exits_5 "task/123" "msg.txt" rfl rfl (Or.inl rfl)
    ⟨"m\n", rfl⟩ rfl rfl (by decide)).1 5 (by decide) rfl

end TaskHook
